import Mathlib

/-!
Shallow embedding of the research-pipeline core of the smart-research-agent
repository (src/src/agent/research_agent.py and src/src/storage/database.py),
together with proofs about the claims of its specification.

Modelling conventions:
* Python strings are Lean `String`s; the Python string primitives used by the
  agent (`strip`, `lstrip`, `split`, `replace`, `startswith`) are re-implemented
  below on the character list so that every definition is executable and
  kernel-reducible.  ASCII classification (`Char.isAlpha`, `Char.isWhitespace`)
  models Python's `isalpha`/whitespace for the ASCII inputs that occur here.
* The Model Gateway (`LLMClient.generate`) either raises or returns text; each
  of the three calls the pipeline makes is modelled by an `Option String`
  (`none` = the call raised, `some r` = it returned `r`).  The prompt text sent
  to the gateway does not influence any behaviour under study and is abstracted.
* The Search Gateway is a pair of oracle functions `search : String → Nat →
  List SearchResult` and `extract : String → String` (empty string = failed
  extraction), exactly the interface `WebSearcher` exposes to the agent.
* The SQLite Session Store (`ResearchDatabase`) is modelled as in-memory lists
  of rows; `AUTOINCREMENT` ids are `length + 1` (rows are never deleted), and
  `CURRENT_TIMESTAMP` is an explicit clock value threaded in.  SQL `REAL`
  columns only ever receive the constant default `0.0`, modelled as `(0 : Rat)`.
* The pipeline `research` additionally returns the ordered trace of external
  effects it performs (searches, page fetches, store writes) so that ordering
  claims can be stated; a Python exception escaping `research` is modelled by
  `Except.error`.
-/

namespace SmartResearch

/-- Python `str.strip()` on a character list: drop whitespace from both ends. -/
def stripChars (l : List Char) : List Char :=
  ((l.dropWhile Char.isWhitespace).reverse.dropWhile Char.isWhitespace).reverse

/-- Python `str.strip()`. -/
def pyStrip (s : String) : String :=
  ⟨stripChars s.data⟩

/-- Python `s.startswith(pre)`. -/
def pyStartsWith (s pre : String) : Bool :=
  pre.data.isPrefixOf s.data

/-- Split a character list at every newline, keeping empty pieces, as Python
`str.split("\n")` does.  The result is always non-empty. -/
def splitNlChars : List Char → List (List Char)
  | [] => [[]]
  | c :: cs =>
    match splitNlChars cs with
    | [] => [[]]
    | r :: rs => if c = '\n' then [] :: r :: rs else (c :: r) :: rs

/-- Python `s.split("\n")`. -/
def pySplitNl (s : String) : List String :=
  (splitNlChars s.data).map fun l => ⟨l⟩

/-- Fuelled worker for `pyReplace`; with fuel at least the length of the input
and a non-empty pattern it replaces every occurrence, left to right. -/
def replaceChars (pat rep : List Char) : Nat → List Char → List Char
  | _, [] => []
  | 0, s => s
  | fuel + 1, c :: cs =>
    if pat.isPrefixOf (c :: cs) then rep ++ replaceChars pat rep fuel ((c :: cs).drop pat.length)
    else c :: replaceChars pat rep fuel cs

/-- Python `s.replace(pat, rep)` (all occurrences), for non-empty `pat` as used
by the agent. -/
def pyReplace (s pat rep : String) : String :=
  ⟨replaceChars pat.data rep.data s.data.length s.data⟩

/-- Python `s.lstrip(chars)`: drop leading characters belonging to `chars`. -/
def pyLstrip (s : String) (chars : List Char) : String :=
  ⟨s.data.dropWhile fun c => chars.contains c⟩

/-- Longest prefix of the list that contains no occurrence of `sep` starting
inside it; the worker behind Python `s.split(sep)[0]`. -/
def takeUntil (sep : List Char) : List Char → List Char
  | [] => []
  | c :: cs => if sep.isPrefixOf (c :: cs) then [] else c :: takeUntil sep cs

/-- Python `s.split("\n\n")[0]`: the text before the first blank-line break. -/
def firstParagraph (s : String) : String :=
  ⟨takeUntil ['\n', '\n'] s.data⟩

/-- Questions-per-depth table of `_generate_research_questions`:
the dictionary lookup with default 5. -/
def numQuestions (depth : String) : Nat :=
  if depth = "quick" then 3 else if depth = "standard" then 5
  else if depth = "deep" then 8 else 5

/-- The characters stripped from the front of a question line. -/
def enumChars : List Char :=
  ['0', '1', '2', '3', '4', '5', '6', '7', '8', '9', '.', ')', '-']

/-- Filter of the question list comprehension: the stripped line is non-empty
and the raw line contains an alphabetic character. -/
def keepQuestionLine (line : String) : Bool :=
  (pyStrip line != "") && line.data.any Char.isAlpha

/-- Map of the question list comprehension:
`line.strip().lstrip("0123456789.)-").strip()`. -/
def cleanQuestionLine (line : String) : String :=
  pyStrip (pyLstrip (pyStrip line) enumChars)

/-- Parsing rule of `_generate_research_questions` applied to a model response:
split into lines, keep usable lines, clean them, truncate to `num`. -/
def parseQuestions (response : String) (num : Nat) : List String :=
  (((pySplitNl response).filter keepQuestionLine).map cleanQuestionLine).take num

/-- The whole `_generate_research_questions` body: `resp` is the outcome of the
model call (`none` = the call raised, handled by the `except` branch). -/
def generateResearchQuestions (resp : Option String) (topic depth : String) : List String :=
  match resp with
  | none => [topic]
  | some r => parseQuestions r (numQuestions depth)

/-- A finding dictionary as built by the parsing loop of `_analyze_sources`;
each key may be absent. -/
structure Finding where
  text : Option String := none
  sources : Option String := none
  confidence : Option String := none
deriving DecidableEq

/-- Python truthiness of the `current_finding` dictionary: it is falsy exactly
when no key has been set. -/
def Finding.isEmpty (f : Finding) : Bool :=
  f.text.isNone && f.sources.isNone && f.confidence.isNone

/-- Value attached by a tag line: `line.replace(tag, "").strip()`. -/
def tagValue (tag line : String) : String :=
  pyStrip (pyReplace line tag "")

/-- One iteration of the finding-parsing loop of `_analyze_sources`: state is
the findings accumulated so far plus the in-progress finding. -/
def findingStep (acc : List Finding × Finding) (rawLine : String) : List Finding × Finding :=
  let line := pyStrip rawLine
  if pyStartsWith line "FINDING:" then
    ((if acc.2.isEmpty then acc.1 else acc.1 ++ [acc.2]),
     { text := some (tagValue "FINDING:" line) })
  else if pyStartsWith line "SOURCES:" then
    (acc.1, { acc.2 with sources := some (tagValue "SOURCES:" line) })
  else if pyStartsWith line "CONFIDENCE:" then
    (acc.1, { acc.2 with confidence := some (tagValue "CONFIDENCE:" line) })
  else acc

/-- The finding-parsing loop over a list of lines, including the flush of a
trailing in-progress finding after the loop. -/
def parseFindingLines (lines : List String) : List Finding :=
  let st := lines.foldl findingStep ([], {})
  if st.2.isEmpty then st.1 else st.1 ++ [st.2]

/-- The finding parser of `_analyze_sources` applied to a model response. -/
def parseFindings (response : String) : List Finding :=
  parseFindingLines (pySplitNl response)

/-- The whole `_analyze_sources` outcome as a function of the model call
result: an exception yields the empty findings list. -/
def analyzeSources (resp : Option String) : List Finding :=
  match resp with
  | none => []
  | some r => parseFindings r

/-- The report dictionary of `_generate_report`. -/
structure Report where
  content : String
  summary : String
deriving DecidableEq

/-- The whole `_generate_report` outcome as a function of the model call
result: on success the summary is `report_content.split("\n\n")[0]` if the
content is non-empty, else the empty string; on failure both fields are the
fixed fallbacks of the `except` branch. -/
def generateReport (resp : Option String) : Report :=
  match resp with
  | some content =>
    { content := content
      summary := if content = "" then "" else firstParagraph content }
  | none => { content := "Error generating report", summary := "" }


/-- A search result as returned by `WebSearcher.search`. -/
structure SearchResult where
  title : String
  url : String
  snippet : String
deriving DecidableEq

/-- A source dictionary as built by `_collect_sources`. -/
structure Source where
  title : String
  url : String
  snippet : String
  content : String
  query : String
deriving DecidableEq

/-- An externally observable effect of the pipeline, in order of occurrence:
a search-gateway query, a page-content fetch, or a session-store write. -/
inductive Event where
  | searchQ (query : String) (maxResults : Nat)
  | fetch (url : String)
  | persistSource (sessionId : Nat) (title url : String)
  | persistFinding (sessionId : Nat) (text : String)
  | persistComplete (sessionId : Nat)
deriving DecidableEq

/-- The source dictionary appended for a search result with extracted content. -/
def mkSource (r : SearchResult) (query content : String) : Source :=
  { title := r.title, url := r.url, snippet := r.snippet
    content := content, query := query }

/-- The inner `for result in search_results` loop of `_collect_sources`,
threading the accumulated source list and recording fetch events.  The length
check before each fetch is the `if len(sources) >= max_sources: break`. -/
def collectFromResults (extract : String → String) (query : String) (maxSources : Nat) :
    List SearchResult → List Source → List Source × List Event
  | [], sources => (sources, [])
  | r :: rs, sources =>
    if sources.length ≥ maxSources then (sources, [])
    else
      let content := extract r.url
      let sources' :=
        if content ≠ "" then sources ++ [mkSource r query content] else sources
      let rest := collectFromResults extract query maxSources rs sources'
      (rest.1, Event.fetch r.url :: rest.2)

/-- The outer `for query in queries` loop of `_collect_sources`: the length
check before each query, a search with `max_results=3`, then the inner loop. -/
def collectFromQueries (search : String → Nat → List SearchResult)
    (extract : String → String) (maxSources : Nat) :
    List String → List Source → List Source × List Event
  | [], sources => (sources, [])
  | q :: qs, sources =>
    if sources.length ≥ maxSources then (sources, [])
    else
      let inner := collectFromResults extract q maxSources (search q 3) sources
      let rest := collectFromQueries search extract maxSources qs inner.1
      (rest.1, Event.searchQ q 3 :: (inner.2 ++ rest.2))

/-- The whole `_collect_sources`: queries are the topic followed by the first
three generated questions; the source accumulator starts empty. -/
def collectSources (search : String → Nat → List SearchResult)
    (extract : String → String) (topic : String) (questions : List String)
    (maxSources : Nat) : List Source × List Event :=
  collectFromQueries search extract maxSources (topic :: questions.take 3) []

/-- A row of the `research_sessions` table. -/
structure SessionRow where
  id : Nat
  topic : String
  depth : String
  createdAt : Nat
  completedAt : Option Nat
  status : String
  summary : Option String
  reportPath : Option String
deriving DecidableEq

/-- A row of the `sources` table. -/
structure SourceRow where
  id : Nat
  sessionId : Nat
  title : String
  url : String
  content : String
  relevanceScore : Rat
  retrievedAt : Nat
deriving DecidableEq

/-- A row of the `findings` table; `sourceIds` holds the `json.dumps`
serialization exactly as the TEXT column does. -/
structure FindingRow where
  id : Nat
  sessionId : Nat
  finding : String
  sourceIds : String
  confidence : Rat
  createdAt : Nat
deriving DecidableEq

/-- The three tables of `ResearchDatabase`. -/
structure DB where
  sessions : List SessionRow
  sources : List SourceRow
  findings : List FindingRow
deriving DecidableEq

/-- A freshly initialised database. -/
def DB.empty : DB := ⟨[], [], []⟩

/-- Python `json.dumps` on a list of integers. -/
def jsonDumpsNats (l : List Nat) : String :=
  "[" ++ String.intercalate ", " (l.map toString) ++ "]"

/-- `ResearchDatabase.create_session`: insert a row with default status
`in_progress` and `CURRENT_TIMESTAMP`, returning the autoincrement id. -/
def createSession (db : DB) (topic depth : String) (now : Nat) : Nat × DB :=
  let id := db.sessions.length + 1
  (id, { db with sessions := db.sessions ++
    [{ id := id, topic := topic, depth := depth, createdAt := now
       completedAt := none, status := "in_progress", summary := none
       reportPath := none }] })

/-- `ResearchDatabase.add_source`. -/
def addSource (db : DB) (sessionId : Nat) (title url content : String)
    (relevanceScore : Rat) (now : Nat) : DB :=
  { db with sources := db.sources ++
    [{ id := db.sources.length + 1, sessionId := sessionId, title := title
       url := url, content := content, relevanceScore := relevanceScore
       retrievedAt := now }] }

/-- `ResearchDatabase.add_finding`: the `source_ids` list is serialized with
`json.dumps`; `confidence` defaults to `0.0` at the Python signature. -/
def addFinding (db : DB) (sessionId : Nat) (text : String) (sourceIds : List Nat)
    (confidence : Rat) (now : Nat) : DB :=
  { db with findings := db.findings ++
    [{ id := db.findings.length + 1, sessionId := sessionId, finding := text
       sourceIds := jsonDumpsNats sourceIds, confidence := confidence
       createdAt := now }] }

/-- `ResearchDatabase.complete_session`: the UPDATE touches every row whose id
matches, setting status, `completed_at`, summary and report path. -/
def completeSession (db : DB) (sessionId : Nat) (summary : String)
    (reportPath : Option String) (now : Nat) : DB :=
  { db with sessions := db.sessions.map fun s =>
      if s.id = sessionId then
        { s with
          status := "completed"
          completedAt := some now
          summary := some summary
          reportPath := reportPath }
      else s }

/-- `ResearchDatabase.get_session`: first row with the given id, if any. -/
def getSession (db : DB) (sessionId : Nat) : Option SessionRow :=
  db.sessions.find? fun s => s.id == sessionId

/-- The comparison realised by `ORDER BY created_at DESC`: `a` may come before
`b` when `b` was not created later. -/
def sessionOrder (a b : SessionRow) : Prop :=
  b.createdAt ≤ a.createdAt

instance : DecidableRel sessionOrder := fun _ _ => Nat.decLe _ _

instance : IsTotal SessionRow sessionOrder :=
  ⟨fun a b => Nat.le_total b.createdAt a.createdAt⟩

instance : IsTrans SessionRow sessionOrder :=
  ⟨fun _ _ _ h1 h2 => Nat.le_trans h2 h1⟩

/-- `ResearchDatabase.list_sessions`: `SELECT * ... ORDER BY created_at DESC
LIMIT ?`.  The SQL names no further sort key, so the relative order of rows
with equal `created_at` is unspecified; the model refines it deterministically
to insertion order via a stable sort. -/
def listSessions (db : DB) (limit : Nat) : List SessionRow :=
  (db.sessions.insertionSort sessionOrder).take limit

/-- The environment a single `ResearchAgent.research` run executes against:
the two gateway oracles, the outcome of each of the three model calls in call
order, and the clock values used for store stamps and the report filename. -/
structure Env where
  search : String → Nat → List SearchResult
  extract : String → String
  questionsResp : Option String
  analysisResp : Option String
  reportResp : Option String
  now : Nat
  timestamp : String
  reportDir : String

/-- The filesystem-safe topic slug of `_save_report`: keep alphanumerics,
space, dash and underscore, then cap at 50 characters. -/
def safeTopic (topic : String) : String :=
  ⟨(topic.data.filter fun c => c.isAlphanum || c == ' ' || c == '-' || c == '_').take 50⟩

/-- The report file path written by `_save_report`. -/
def reportFilePath (reportDir timestamp topic : String) : String :=
  reportDir ++ "/" ++ timestamp ++ "_" ++ safeTopic topic ++ ".md"

/-- The `for finding in findings` persistence loop of `research`: each step
reads `finding["text"]` (a KeyError aborts the run; writes so far remain) and
calls `add_finding` with `finding.get("source_ids", [])` — a key the parser
never sets — and no confidence argument.  Returns the updated store, the write
events performed, and the error if one was raised. -/
def persistFindings (sessionId now : Nat) :
    List Finding → DB → DB × List Event × Option String
  | [], db => (db, [], none)
  | f :: fs, db =>
    match f.text with
    | none => (db, [], some "KeyError: text")
    | some t =>
      let db' := addFinding db sessionId t [] 0 now
      let rest := persistFindings sessionId now fs db'
      (rest.1, Event.persistFinding sessionId t :: rest.2.1, rest.2.2)

/-- The dictionary returned by `ResearchAgent.research`. -/
structure ResearchResult where
  sessionId : Nat
  topic : String
  report : Report
  reportPath : String
  sources : List Source
  findings : List Finding
deriving DecidableEq

/-- The whole `ResearchAgent.research` pipeline: create the session, generate
questions, collect sources, persist the collected sources, analyze, persist
findings, generate and save the report, complete the session.  Returns the
result (or the escaping exception), the final store state, and the ordered
trace of external effects. -/
def research (env : Env) (db : DB) (topic depth : String) (maxSources : Nat) :
    Except String ResearchResult × DB × List Event :=
  let created := createSession db topic depth env.now
  let sessionId := created.1
  let db1 := created.2
  let questions := generateResearchQuestions env.questionsResp topic depth
  let collected := collectSources env.search env.extract topic questions maxSources
  let sources := collected.1
  let db2 := sources.foldl
    (fun d s => addSource d sessionId s.title s.url s.content 0 env.now) db1
  let sourceEvents := sources.map fun s => Event.persistSource sessionId s.title s.url
  let findings := analyzeSources env.analysisResp
  let persisted := persistFindings sessionId env.now findings db2
  match persisted.2.2 with
  | some e => (Except.error e, persisted.1, collected.2 ++ sourceEvents ++ persisted.2.1)
  | none =>
    let report := generateReport env.reportResp
    let path := reportFilePath env.reportDir env.timestamp topic
    let db4 := completeSession persisted.1 sessionId report.summary (some path) env.now
    (Except.ok { sessionId := sessionId, topic := topic, report := report
                 reportPath := path, sources := sources, findings := findings },
     db4,
     collected.2 ++ sourceEvents ++ persisted.2.1 ++ [Event.persistComplete sessionId])

/-- Whether an event is a page-content fetch. -/
def Event.isFetch : Event → Bool
  | Event.fetch _ => true
  | _ => false

/-- Whether an event is the completion write of a session. -/
def Event.isComplete : Event → Bool
  | Event.persistComplete _ => true
  | _ => false

/-- The payload of a source-persistence event, if the event is one. -/
def persistSourceInfo : Event → Option (Nat × String × String)
  | Event.persistSource sid t u => some (sid, t, u)
  | _ => none

/-- The queries sent to the search gateway, read off an event trace in order. -/
def searchedQueries (evs : List Event) : List String :=
  evs.filterMap fun e =>
    match e with
    | Event.searchQ q _ => some q
    | _ => none

/-- Specification-level description of source acceptance, written from the
spec's words for step 3: walk the (query, result) pairs in order with a
remaining budget; while the budget is positive, a pair is accepted exactly
when its extracted content is non-empty.  It is compared with the list the
implementation's `collectSources` produces. -/
def specAccept (extract : String → String) :
    List (String × SearchResult) → Nat → List Source
  | [], _ => []
  | (q, r) :: ps, b =>
    if b = 0 then [] else
      let c := extract r.url
      if c ≠ "" then mkSource r q c :: specAccept extract ps (b - 1)
      else specAccept extract ps b

/-- All (query, search result) pairs the collection loop can see, in loop
order: topic first, then the first three questions, three results per query. -/
def searchPairs (search : String → Nat → List SearchResult) (topic : String)
    (questions : List String) : List (String × SearchResult) :=
  (topic :: questions.take 3).flatMap fun q => (search q 3).map fun r => (q, r)

/-- Concrete run for claim C5: one query with two results, both extractions
non-empty, so two sources are accepted from consecutive fetches. -/
def envC5 : Env where
  search := fun q _ =>
    if q = "t" then [⟨"T1", "u1", "s1"⟩, ⟨"T2", "u2", "s2"⟩] else []
  extract := fun u => if u = "u1" then "c1" else if u = "u2" then "c2" else ""
  questionsResp := some ""
  analysisResp := none
  reportResp := none
  now := 0
  timestamp := "ts"
  reportDir := "reports"


/-- Concrete run for claim C6: no search results; the analysis response is one
fully tagged finding. -/
def envC6 : Env where
  search := fun _ _ => []
  extract := fun _ => ""
  questionsResp := none
  analysisResp := some "FINDING: A\nSOURCES: 1,2\nCONFIDENCE: High"
  reportResp := none
  now := 7
  timestamp := "ts"
  reportDir := "reports"

/-- Concrete run for claim C9: the analysis response carries a SOURCES: line
before the first FINDING: line. -/
def envC9 : Env where
  search := fun _ _ => []
  extract := fun _ => ""
  questionsResp := none
  analysisResp := some "SOURCES: 1\nFINDING: A"
  reportResp := none
  now := 3
  timestamp := "ts"
  reportDir := "reports"

/-- Three sessions created in topic order A, B, C within the same
`CURRENT_TIMESTAMP` second. -/
def dbTied : DB :=
  (createSession (createSession (createSession DB.empty "A" "standard" 10).2
    "B" "standard" 10).2 "C" "standard" 10).2

/-- Three sessions created in topic order A, B, C at strictly increasing
creation times. -/
def dbStrict : DB :=
  (createSession (createSession (createSession DB.empty "A" "standard" 1).2
    "B" "standard" 2).2 "C" "standard" 3).2

/-- Concrete run for claim C7: the report model call raises; no search
results; no findings. -/
def envC7 : Env where
  search := fun _ _ => []
  extract := fun _ => ""
  questionsResp := none
  analysisResp := none
  reportResp := none
  now := 1
  timestamp := "ts"
  reportDir := "reports"

theorem persistFindings_spec (sessionId now : Nat) :
    ∀ (fs : List Finding) (db : DB),
      (∀ f ∈ fs, f.text.isSome = true) →
      persistFindings sessionId now fs db =
        (fs.foldl (fun d f => addFinding d sessionId (f.text.getD "") [] 0 now) db,
         fs.map (fun f => Event.persistFinding sessionId (f.text.getD "")),
         none) := by
  intro fs
  induction fs with
  | nil => intro db _; rfl
  | cons f fs ih =>
    intro db h
    have hf : f.text.isSome = true := h f (List.mem_cons_self f fs)
    obtain ⟨t, ht⟩ := Option.isSome_iff_exists.mp hf
    have hrest := ih (addFinding db sessionId t [] 0 now)
      (fun g hg => h g (List.mem_cons_of_mem f hg))
    simp [persistFindings, ht, hrest]

theorem persistFindings_events (sessionId now : Nat) :
    ∀ (fs : List Finding) (db : DB),
      ∀ e ∈ (persistFindings sessionId now fs db).2.1,
        ∃ t, e = Event.persistFinding sessionId t := by
  intro fs
  induction fs with
  | nil => intro db e he; simp [persistFindings] at he
  | cons f fs ih =>
    intro db e he
    cases ht : f.text with
    | none => simp [persistFindings, ht] at he
    | some t =>
      simp only [persistFindings, ht] at he
      rcases List.mem_cons.mp he with h1 | h2
      · exact ⟨t, h1⟩
      · exact ih _ e h2

theorem collectFromResults_events (extract : String → String) (query : String)
    (m : Nat) :
    ∀ (rs : List SearchResult) (s : List Source),
      ∀ e ∈ (collectFromResults extract query m rs s).2, ∃ u, e = Event.fetch u := by
  intro rs
  induction rs with
  | nil => intro s e he; simp [collectFromResults] at he
  | cons r rs ih =>
    intro s e he
    by_cases hlen : s.length ≥ m
    · simp [collectFromResults, hlen] at he
    · simp only [collectFromResults, if_neg hlen] at he
      rcases List.mem_cons.mp he with h1 | h2
      · exact ⟨r.url, h1⟩
      · exact ih _ e h2

theorem collectFromQueries_events (search : String → Nat → List SearchResult)
    (extract : String → String) (m : Nat) :
    ∀ (qs : List String) (s : List Source),
      ∀ e ∈ (collectFromQueries search extract m qs s).2,
        (∃ u, e = Event.fetch u) ∨ (∃ q, e = Event.searchQ q 3) := by
  intro qs
  induction qs with
  | nil => intro s e he; simp [collectFromQueries] at he
  | cons q qs ih =>
    intro s e he
    by_cases hlen : s.length ≥ m
    · simp [collectFromQueries, hlen] at he
    · simp only [collectFromQueries, if_neg hlen] at he
      rcases List.mem_cons.mp he with h1 | h2
      · exact Or.inr ⟨q, h1⟩
      · rcases List.mem_append.mp h2 with h3 | h4
        · exact Or.inl (collectFromResults_events extract q m _ _ e h3)
        · exact ih _ e h4

theorem research_completes (env : Env) (db : DB) (topic depth : String) (m : Nat)
    (h : ∀ f ∈ analyzeSources env.analysisResp, f.text.isSome = true) :
    (research env db topic depth m).1 =
      Except.ok
        { sessionId := db.sessions.length + 1
          topic := topic
          report := generateReport env.reportResp
          reportPath := reportFilePath env.reportDir env.timestamp topic
          sources := (collectSources env.search env.extract topic
            (generateResearchQuestions env.questionsResp topic depth) m).1
          findings := analyzeSources env.analysisResp } ∧
    (research env db topic depth m).2.2 =
      (collectSources env.search env.extract topic
        (generateResearchQuestions env.questionsResp topic depth) m).2 ++
      ((collectSources env.search env.extract topic
        (generateResearchQuestions env.questionsResp topic depth) m).1.map fun s =>
          Event.persistSource (db.sessions.length + 1) s.title s.url) ++
      ((analyzeSources env.analysisResp).map fun f =>
        Event.persistFinding (db.sessions.length + 1) (f.text.getD "")) ++
      [Event.persistComplete (db.sessions.length + 1)] := by
  constructor
  · simp only [research, createSession]
    rw [persistFindings_spec _ _ _ _ h]
  · simp only [research, createSession]
    rw [persistFindings_spec _ _ _ _ h]

theorem research_trace_count_complete (env : Env) (db : DB) (topic depth : String)
    (m : Nat) (h : ∀ f ∈ analyzeSources env.analysisResp, f.text.isSome = true) :
    ((research env db topic depth m).2.2).count
      (Event.persistComplete (db.sessions.length + 1)) = 1 := by
  rw [(research_completes env db topic depth m h).2]
  rw [List.count_append, List.count_append, List.count_append]
  have h1 : Event.persistComplete (db.sessions.length + 1) ∉
      (collectSources env.search env.extract topic
        (generateResearchQuestions env.questionsResp topic depth) m).2 := by
    intro hm
    rcases collectFromQueries_events env.search env.extract m _ _ _ hm with
      ⟨u, hu⟩ | ⟨q, hq⟩
    · exact Event.noConfusion hu
    · exact Event.noConfusion hq
  have h2 : Event.persistComplete (db.sessions.length + 1) ∉
      ((collectSources env.search env.extract topic
        (generateResearchQuestions env.questionsResp topic depth) m).1.map fun s =>
          Event.persistSource (db.sessions.length + 1) s.title s.url) := by
    intro hm
    obtain ⟨s, _, hs⟩ := List.mem_map.mp hm
    exact Event.noConfusion hs
  have h3 : Event.persistComplete (db.sessions.length + 1) ∉
      ((analyzeSources env.analysisResp).map fun f =>
        Event.persistFinding (db.sessions.length + 1) (f.text.getD "")) := by
    intro hm
    obtain ⟨f, _, hf⟩ := List.mem_map.mp hm
    exact Event.noConfusion hf
  rw [List.count_eq_zero.mpr h1, List.count_eq_zero.mpr h2, List.count_eq_zero.mpr h3]
  simp

/-- C1 (counterexample): a model response with zero usable lines does not make
`_generate_research_questions` return `[topic]`; it returns the empty list. -/
theorem c1_counterexample :
    generateResearchQuestions (some "123") "quantum computing" "standard" = [] ∧
    generateResearchQuestions (some "123") "quantum computing" "standard" ≠
      ["quantum computing"] := by decide

/-- C1 (amended): the `[topic]` fallback of `_generate_research_questions`
happens exactly when the model call raises; a call that succeeds but yields
zero usable lines returns the empty list instead.  When the question call
raises, the run still completes the session (with exactly one completion
write), provided the independent finding-persistence step does not crash,
i.e. every parsed finding carries a text field. -/
theorem c1_question_fallback :
    (∀ topic depth : String, generateResearchQuestions none topic depth = [topic]) ∧
    (∀ topic depth r : String, parseQuestions r (numQuestions depth) = [] →
      generateResearchQuestions (some r) topic depth = []) ∧
    (∀ (env : Env) (db : DB) (topic depth : String) (maxSources : Nat),
      env.questionsResp = none →
      (∀ f ∈ analyzeSources env.analysisResp, f.text.isSome = true) →
      ∃ res : ResearchResult,
        (research env db topic depth maxSources).1 = Except.ok res ∧
        ((research env db topic depth maxSources).2.2).count
          (Event.persistComplete res.sessionId) = 1) := by
  refine ⟨fun _ _ => rfl, fun topic depth r h => by simp [generateResearchQuestions, h], ?_⟩
  intro env db topic depth maxSources _ h
  refine ⟨_, (research_completes env db topic depth maxSources h).1, ?_⟩
  exact research_trace_count_complete env db topic depth maxSources h

/-- Witness for C1 (amended): instantiated at a concrete raising question call
with an analysis response whose findings all carry text. -/
theorem c1_question_fallback_witness :
    generateResearchQuestions none "solar power" "quick" = ["solar power"] ∧
    generateResearchQuestions (some "123\n456") "solar power" "quick" = [] ∧
    ∃ res : ResearchResult,
      (research envC6 DB.empty "solar power" "quick" 5).1 = Except.ok res ∧
      ((research envC6 DB.empty "solar power" "quick" 5).2.2).count
        (Event.persistComplete res.sessionId) = 1 := by
  refine ⟨c1_question_fallback.1 "solar power" "quick", ?_, ?_⟩
  · exact c1_question_fallback.2.1 "solar power" "quick" "123\n456" (by decide)
  · exact c1_question_fallback.2.2 envC6 DB.empty "solar power" "quick" 5 rfl (by decide)

theorem findingStep_untagged (acc : List Finding × Finding) (l : String)
    (h1 : pyStartsWith (pyStrip l) "FINDING:" = false)
    (h2 : pyStartsWith (pyStrip l) "SOURCES:" = false)
    (h3 : pyStartsWith (pyStrip l) "CONFIDENCE:" = false) :
    findingStep acc l = acc := by
  simp [findingStep, h1, h2, h3]

theorem findingStep_text_invariant (fs : List Finding) (cur : Finding) (l : String)
    (h1 : ∀ f ∈ fs.drop 1, f.text.isSome = true)
    (h2 : fs ≠ [] → cur.text.isSome = true) :
    (∀ f ∈ (findingStep (fs, cur) l).1.drop 1, f.text.isSome = true) ∧
    ((findingStep (fs, cur) l).1 ≠ [] → (findingStep (fs, cur) l).2.text.isSome = true) := by
  by_cases hF : pyStartsWith (pyStrip l) "FINDING:"
  · simp only [findingStep, hF, if_true]
    refine ⟨?_, fun _ => rfl⟩
    by_cases hcur : cur.isEmpty
    · simpa [hcur] using h1
    · simp only [hcur, Bool.false_eq_true, if_false]
      cases fs with
      | nil => simp
      | cons g gs =>
        intro f hf
        simp only [List.cons_append, List.drop_succ_cons, List.drop_zero] at hf
        rcases List.mem_append.mp hf with hg | hc
        · exact h1 f (by simpa using hg)
        · have : f = cur := by simpa using hc
          exact this ▸ h2 (List.cons_ne_nil g gs)
  · by_cases hS : pyStartsWith (pyStrip l) "SOURCES:"
    · simp only [findingStep, hF, hS, Bool.false_eq_true, if_false, if_true]
      exact ⟨h1, fun hne => h2 hne⟩
    · by_cases hC : pyStartsWith (pyStrip l) "CONFIDENCE:"
      · simp only [findingStep, hF, hS, hC, Bool.false_eq_true, if_false, if_true]
        exact ⟨h1, fun hne => h2 hne⟩
      · rw [findingStep_untagged (fs, cur) l (by simpa using hF) (by simpa using hS)
          (by simpa using hC)]
        exact ⟨h1, h2⟩

theorem foldl_findingStep_text_invariant :
    ∀ (ls : List String) (fs : List Finding) (cur : Finding),
      (∀ f ∈ fs.drop 1, f.text.isSome = true) →
      (fs ≠ [] → cur.text.isSome = true) →
      (∀ f ∈ (ls.foldl findingStep (fs, cur)).1.drop 1, f.text.isSome = true) ∧
      ((ls.foldl findingStep (fs, cur)).1 ≠ [] →
        (ls.foldl findingStep (fs, cur)).2.text.isSome = true) := by
  intro ls
  induction ls with
  | nil => intro fs cur h1 h2; exact ⟨h1, h2⟩
  | cons l ls ih =>
    intro fs cur h1 h2
    have hstep := findingStep_text_invariant fs cur l h1 h2
    have := ih (findingStep (fs, cur) l).1 (findingStep (fs, cur) l).2 hstep.1 hstep.2
    simpa using this

/-- C2 (counterexample): a SOURCES: line before the first FINDING: line is not
ignored — it opens a leading record without a text field, so the output
differs from the output on the response with the leading line removed. -/
theorem c2_counterexample :
    parseFindings "SOURCES: 1\nFINDING: A" ≠ parseFindings "FINDING: A" ∧
    ∃ f ∈ parseFindings "SOURCES: 1\nFINDING: A", f.text = none := by decide

/-- C2 (amended): leading lines contribute nothing provided none of them is a
SOURCES: or CONFIDENCE: tag line (a leading tag line instead opens a record
without a text field); consequently every returned record except possibly the
first carries a text field. -/
theorem c2_leading_lines :
    (∀ ls₁ ls₂ : List String,
      (∀ l ∈ ls₁, pyStartsWith (pyStrip l) "FINDING:" = false ∧
        pyStartsWith (pyStrip l) "SOURCES:" = false ∧
        pyStartsWith (pyStrip l) "CONFIDENCE:" = false) →
      parseFindingLines (ls₁ ++ ls₂) = parseFindingLines ls₂) ∧
    (∀ (ls : List String) (f : Finding),
      f ∈ (parseFindingLines ls).drop 1 → f.text.isSome = true) := by
  constructor
  · intro ls₁ ls₂ h
    have hfold : ls₁.foldl findingStep (([], {}) : List Finding × Finding) = ([], {}) := by
      induction ls₁ with
      | nil => rfl
      | cons l ls ih =>
        have hl := h l (List.mem_cons_self l ls)
        simp only [List.foldl_cons, findingStep_untagged ([], {}) l hl.1 hl.2.1 hl.2.2]
        exact ih fun g hg => h g (List.mem_cons_of_mem l hg)
    unfold parseFindingLines
    rw [List.foldl_append, hfold]
  · intro ls f hf
    have hinv := foldl_findingStep_text_invariant ls [] {} (by simp) (by simp)
    unfold parseFindingLines at hf
    by_cases hemp : (ls.foldl findingStep ([], {})).2.isEmpty
    · rw [if_pos hemp] at hf
      exact hinv.1 f hf
    · rw [if_neg hemp] at hf
      cases hfs : (ls.foldl findingStep ([], {})).1 with
      | nil => rw [hfs] at hf; simp at hf
      | cons g gs =>
        rw [hfs] at hf
        simp only [List.cons_append, List.drop_succ_cons, List.drop_zero] at hf
        rcases List.mem_append.mp hf with hg | hc
        · exact hinv.1 f (by rw [hfs]; simpa using hg)
        · have hfe : f = (ls.foldl findingStep ([], {})).2 := by simpa using hc
          rw [hfe]
          exact hinv.2 (by rw [hfs]; exact List.cons_ne_nil g gs)

/-- Witness for C2 (amended): a concrete untagged preamble is dropped, and the
second record of the counterexample response does carry text. -/
theorem c2_leading_lines_witness :
    parseFindingLines (["some preamble", ""] ++ ["FINDING: A"]) =
      parseFindingLines ["FINDING: A"] ∧
    (({ text := some "A" } : Finding)).text.isSome = true := by
  constructor
  · exact c2_leading_lines.1 ["some preamble", ""] ["FINDING: A"] (by decide)
  · exact c2_leading_lines.2 ["SOURCES: 1", "FINDING: A"] { text := some "A" } (by decide)

theorem collectFromResults_stop (extract : String → String) (q : String) (m : Nat)
    (rs : List SearchResult) (s : List Source) (h : m ≤ s.length) :
    collectFromResults extract q m rs s = (s, []) := by
  cases rs with
  | nil => rfl
  | cons r rs => simp [collectFromResults, h]

theorem collectFromQueries_stop (search : String → Nat → List SearchResult)
    (extract : String → String) (m : Nat) (qs : List String) (s : List Source)
    (h : m ≤ s.length) :
    collectFromQueries search extract m qs s = (s, []) := by
  cases qs with
  | nil => rfl
  | cons q qs => simp [collectFromQueries, h]

theorem collectFromResults_length (extract : String → String) (q : String) (m : Nat) :
    ∀ (rs : List SearchResult) (s : List Source),
      s.length ≤ m → (collectFromResults extract q m rs s).1.length ≤ m := by
  intro rs
  induction rs with
  | nil => intro s hs; exact hs
  | cons r rs ih =>
    intro s hs
    by_cases hlen : s.length ≥ m
    · simpa [collectFromResults, hlen] using hs
    · simp only [collectFromResults, if_neg hlen]
      by_cases hc : extract r.url = ""
      · exact ih _ (by simp [hc]; omega)
      · exact ih _ (by simp [hc]; omega)

theorem collectFromQueries_length (search : String → Nat → List SearchResult)
    (extract : String → String) (m : Nat) :
    ∀ (qs : List String) (s : List Source),
      s.length ≤ m → (collectFromQueries search extract m qs s).1.length ≤ m := by
  intro qs
  induction qs with
  | nil => intro s hs; exact hs
  | cons q qs ih =>
    intro s hs
    by_cases hlen : s.length ≥ m
    · simpa [collectFromQueries, hlen] using hs
    · simp only [collectFromQueries, if_neg hlen]
      exact ih _ (collectFromResults_length extract q m _ s hs)

/-- C4 (confirmed): the collected source list never exceeds max_sources, and
the count check runs before each per-result fetch and before each query — once
the cap is reached both loops return immediately, performing no further fetch
or search. -/
theorem c4_max_sources_cap :
    (∀ (search : String → Nat → List SearchResult) (extract : String → String)
       (topic : String) (questions : List String) (maxSources : Nat),
      0 < maxSources →
      (collectSources search extract topic questions maxSources).1.length ≤ maxSources) ∧
    (∀ (extract : String → String) (q : String) (m : Nat)
       (rs : List SearchResult) (s : List Source),
      m ≤ s.length → collectFromResults extract q m rs s = (s, [])) ∧
    (∀ (search : String → Nat → List SearchResult) (extract : String → String)
       (m : Nat) (qs : List String) (s : List Source),
      m ≤ s.length → collectFromQueries search extract m qs s = (s, [])) := by
  refine ⟨?_, collectFromResults_stop, collectFromQueries_stop⟩
  intro search extract topic questions maxSources _
  exact collectFromQueries_length search extract maxSources _ [] (by simp)

/-- Witness for C4: a single query offering two extractable results under cap
1 collects exactly one source, and both loops stop at a full accumulator. -/
theorem c4_max_sources_cap_witness :
    (collectSources (fun _ _ => [⟨"T1", "u1", "s1"⟩, ⟨"T2", "u2", "s2"⟩])
      (fun _ => "content") "t" [] 1).1.length ≤ 1 ∧
    collectFromResults (fun _ => "content") "t" 1 [⟨"T2", "u2", "s2"⟩]
      [mkSource ⟨"T1", "u1", "s1"⟩ "t" "content"] =
      ([mkSource ⟨"T1", "u1", "s1"⟩ "t" "content"], []) ∧
    collectFromQueries (fun _ _ => [⟨"T2", "u2", "s2"⟩]) (fun _ => "content") 1
      ["next query"] [mkSource ⟨"T1", "u1", "s1"⟩ "t" "content"] =
      ([mkSource ⟨"T1", "u1", "s1"⟩ "t" "content"], []) := by
  refine ⟨?_, ?_, ?_⟩
  · exact c4_max_sources_cap.1 (fun _ _ => [⟨"T1", "u1", "s1"⟩, ⟨"T2", "u2", "s2"⟩])
      (fun _ => "content") "t" [] 1 (by decide)
  · exact c4_max_sources_cap.2.1 (fun _ => "content") "t" 1 [⟨"T2", "u2", "s2"⟩]
      [mkSource ⟨"T1", "u1", "s1"⟩ "t" "content"] (by decide)
  · exact c4_max_sources_cap.2.2 (fun _ _ => [⟨"T2", "u2", "s2"⟩]) (fun _ => "content")
      1 ["next query"] [mkSource ⟨"T1", "u1", "s1"⟩ "t" "content"] (by decide)

/-- C3 (confirmed): the finding parser on the five-line example yields exactly
the two records of the claim; in general a FINDING: line flushes a non-empty
in-progress record and starts a fresh one holding only the text, a repeated
SOURCES: or CONFIDENCE: tag overwrites the current record's field (last
occurrence before the next FINDING: wins), and a non-empty trailing record is
flushed at end of input. -/
theorem c3_parse_contract :
    parseFindings "FINDING: A\nSOURCES: 1,2\nCONFIDENCE: High\nFINDING: B\nCONFIDENCE: Low" =
      [{ text := some "A", sources := some "1,2", confidence := some "High" },
       { text := some "B", confidence := some "Low" }] ∧
    (∀ (fs : List Finding) (cur : Finding) (l : String),
      pyStartsWith (pyStrip l) "FINDING:" = true →
      findingStep (fs, cur) l =
        ((if cur.isEmpty then fs else fs ++ [cur]),
         { text := some (tagValue "FINDING:" (pyStrip l)) })) ∧
    (∀ (fs : List Finding) (cur : Finding) (l : String),
      pyStartsWith (pyStrip l) "FINDING:" = false →
      pyStartsWith (pyStrip l) "SOURCES:" = true →
      findingStep (fs, cur) l =
        (fs, { cur with sources := some (tagValue "SOURCES:" (pyStrip l)) })) ∧
    (∀ (fs : List Finding) (cur : Finding) (l : String),
      pyStartsWith (pyStrip l) "FINDING:" = false →
      pyStartsWith (pyStrip l) "SOURCES:" = false →
      pyStartsWith (pyStrip l) "CONFIDENCE:" = true →
      findingStep (fs, cur) l =
        (fs, { cur with confidence := some (tagValue "CONFIDENCE:" (pyStrip l)) })) ∧
    (∀ ls : List String,
      (ls.foldl findingStep ([], {})).2.isEmpty = false →
      parseFindingLines ls =
        (ls.foldl findingStep ([], {})).1 ++ [(ls.foldl findingStep ([], {})).2]) := by
  refine ⟨by decide, ?_, ?_, ?_, ?_⟩
  · intro fs cur l h; simp [findingStep, h]
  · intro fs cur l h1 h2; simp [findingStep, h1, h2]
  · intro fs cur l h1 h2 h3; simp [findingStep, h1, h2, h3]
  · intro ls h; simp [parseFindingLines, h]

/-- Witness for C3: the general clauses instantiated at concrete lines and
states, including a repeated-tag overwrite. -/
theorem c3_parse_contract_witness :
    findingStep ([], {}) "FINDING: X" = ([], { text := some "X" }) ∧
    findingStep ([], { text := some "X", sources := some "old" }) "SOURCES: new" =
      ([], { text := some "X", sources := some "new" }) ∧
    findingStep ([], { text := some "X" }) "CONFIDENCE: High" =
      ([], { text := some "X", confidence := some "High" }) ∧
    parseFindingLines ["FINDING: X"] = [{ text := some "X" }] := by
  refine ⟨?_, ?_, ?_, ?_⟩
  · rw [c3_parse_contract.2.1 [] {} "FINDING: X" (by decide)]; decide
  · rw [c3_parse_contract.2.2.1 [] { text := some "X", sources := some "old" }
      "SOURCES: new" (by decide) (by decide)]
    decide
  · rw [c3_parse_contract.2.2.2.1 [] { text := some "X" } "CONFIDENCE: High"
      (by decide) (by decide) (by decide)]
    decide
  · rw [c3_parse_contract.2.2.2.2 ["FINDING: X"] (by decide)]; decide

/-- C6 (code evaluated at the failing input): the parser extracts text "A",
sources "1,2" and confidence "High", yet the persisted finding row stores the
serialized empty list "[]" as source_ids and the 0.0 default confidence — the
parsed SOURCES and CONFIDENCE values are dropped. -/
theorem c6_parsed_tags_dropped :
    analyzeSources envC6.analysisResp =
      [{ text := some "A", sources := some "1,2", confidence := some "High" }] ∧
    (research envC6 DB.empty "t" "quick" 5).2.1.findings =
      [{ id := 1, sessionId := 1, finding := "A", sourceIds := "[]",
         confidence := 0, createdAt := 7 }] := by decide

theorem specAccept_zero (extract : String → String) :
    ∀ ps : List (String × SearchResult), specAccept extract ps 0 = [] := by
  intro ps
  cases ps with
  | nil => rfl
  | cons p ps => cases p; simp [specAccept]

theorem specAccept_length_le (extract : String → String) :
    ∀ (ps : List (String × SearchResult)) (b : Nat),
      (specAccept extract ps b).length ≤ b := by
  intro ps
  induction ps with
  | nil => intro b; simp [specAccept]
  | cons p ps ih =>
    intro b
    obtain ⟨q, r⟩ := p
    by_cases hb : b = 0
    · simp [hb, specAccept_zero]
    · simp only [specAccept, if_neg hb]
      by_cases hc : extract r.url = ""
      · rw [if_neg (not_not_intro hc)]
        exact ih b
      · rw [if_pos hc]
        have := ih (b - 1)
        simp only [List.length_cons]
        omega

theorem specAccept_append (extract : String → String) :
    ∀ (ps qs : List (String × SearchResult)) (b : Nat),
      specAccept extract (ps ++ qs) b =
        specAccept extract ps b ++
          specAccept extract qs (b - (specAccept extract ps b).length) := by
  intro ps
  induction ps with
  | nil => intro qs b; simp [specAccept]
  | cons p ps ih =>
    intro qs b
    obtain ⟨q, r⟩ := p
    by_cases hb : b = 0
    · simp [hb, specAccept_zero]
    · simp only [List.cons_append, specAccept, if_neg hb]
      by_cases hc : extract r.url = ""
      · simp only [if_neg (not_not_intro hc)]
        simpa using ih qs b
      · simp only [if_pos hc]
        rw [show ps.append qs = ps ++ qs from rfl]
        rw [ih qs (b - 1), List.cons_append]
        congr 3
        simp only [List.length_cons]
        omega

theorem collectFromResults_sources (extract : String → String) (q : String) (m : Nat) :
    ∀ (rs : List SearchResult) (s : List Source),
      (collectFromResults extract q m rs s).1 =
        s ++ specAccept extract (rs.map fun r => (q, r)) (m - s.length) := by
  intro rs
  induction rs with
  | nil => intro s; simp [collectFromResults, specAccept]
  | cons r rs ih =>
    intro s
    by_cases hlen : s.length ≥ m
    · rw [Nat.sub_eq_zero_of_le hlen]
      simp [collectFromResults, hlen, specAccept_zero]
    · simp only [collectFromResults, if_neg hlen, List.map_cons]
      have hb : m - s.length ≠ 0 := by omega
      by_cases hc : extract r.url = ""
      · rw [if_neg (not_not_intro hc), ih s]
        simp only [specAccept, if_neg hb]
        rw [if_neg (not_not_intro hc)]
      · rw [if_pos hc, ih (s ++ [mkSource r q (extract r.url)])]
        rw [List.append_assoc]
        congr 1
        rw [List.singleton_append]
        simp only [specAccept, if_neg hb]
        rw [if_pos hc]
        congr 2
        simp only [List.length_append, List.length_cons, List.length_nil]
        omega

theorem collectFromQueries_sources (search : String → Nat → List SearchResult)
    (extract : String → String) (m : Nat) :
    ∀ (qs : List String) (s : List Source),
      (collectFromQueries search extract m qs s).1 =
        s ++ specAccept extract
          (qs.flatMap fun q => (search q 3).map fun r => (q, r)) (m - s.length) := by
  intro qs
  induction qs with
  | nil => intro s; simp [collectFromQueries, specAccept]
  | cons q qs ih =>
    intro s
    by_cases hlen : s.length ≥ m
    · rw [Nat.sub_eq_zero_of_le hlen]
      simp [collectFromQueries, hlen, specAccept_zero]
    · simp only [collectFromQueries, if_neg hlen, List.flatMap_cons]
      rw [ih, collectFromResults_sources]
      rw [specAccept_append]
      rw [List.append_assoc]
      congr 2
      simp only [List.length_append]
      congr 1
      omega

theorem collectFromQueries_searched (search : String → Nat → List SearchResult)
    (extract : String → String) (m : Nat) :
    ∀ (qs : List String) (s : List Source),
      searchedQueries (collectFromQueries search extract m qs s).2 <+: qs := by
  intro qs
  induction qs with
  | nil =>
    intro s
    simp [collectFromQueries, searchedQueries]
  | cons q qs ih =>
    intro s
    by_cases hlen : s.length ≥ m
    · simp [collectFromQueries, hlen, searchedQueries]
    · simp only [collectFromQueries, if_neg hlen]
      have hinner : searchedQueries
          (collectFromResults extract q m (search q 3) s).2 = [] := by
        rw [searchedQueries, List.filterMap_eq_nil_iff]
        intro e he
        obtain ⟨u, hu⟩ := collectFromResults_events extract q m (search q 3) s e he
        rw [hu]
      rw [searchedQueries] at hinner ⊢
      simp only [List.filterMap_cons, List.filterMap_append, hinner, List.nil_append]
      obtain ⟨t, ht⟩ := ih (collectFromResults extract q m (search q 3) s).1
      exact ⟨t, by rw [List.cons_append]; exact congrArg (List.cons q) ht⟩

theorem filterMap_persistSourceInfo_map (sid : Nat) (l : List Source) :
    (l.map fun s => Event.persistSource sid s.title s.url).filterMap persistSourceInfo =
      l.map fun s => (sid, s.title, s.url) := by
  induction l with
  | nil => rfl
  | cons s l ih => simp [persistSourceInfo, ih]

theorem research_trace_split (env : Env) (db : DB) (topic depth : String) (m : Nat) :
    ∃ post : List Event,
      (research env db topic depth m).2.2 =
        (collectSources env.search env.extract topic
          (generateResearchQuestions env.questionsResp topic depth) m).2 ++
        ((collectSources env.search env.extract topic
          (generateResearchQuestions env.questionsResp topic depth) m).1.map fun s =>
            Event.persistSource (createSession db topic depth env.now).1 s.title s.url) ++
        post ∧
      (∀ e ∈ post, e.isFetch = false ∧ persistSourceInfo e = none) := by
  simp only [research]
  cases hE : (persistFindings (createSession db topic depth env.now).1 env.now
      (analyzeSources env.analysisResp)
      (List.foldl
        (fun d s =>
          addSource d (createSession db topic depth env.now).1 s.title s.url s.content 0 env.now)
        (createSession db topic depth env.now).2
        (collectSources env.search env.extract topic
          (generateResearchQuestions env.questionsResp topic depth) m).1)).2.2 with
  | some e =>
    refine ⟨(persistFindings (createSession db topic depth env.now).1 env.now
      (analyzeSources env.analysisResp)
      (List.foldl
        (fun d s =>
          addSource d (createSession db topic depth env.now).1 s.title s.url s.content 0 env.now)
        (createSession db topic depth env.now).2
        (collectSources env.search env.extract topic
          (generateResearchQuestions env.questionsResp topic depth) m).1)).2.1, rfl, ?_⟩
    intro ev hev
    obtain ⟨t, ht⟩ := persistFindings_events _ _ _ _ ev hev
    rw [ht]
    exact ⟨rfl, rfl⟩
  | none =>
    refine ⟨(persistFindings (createSession db topic depth env.now).1 env.now
      (analyzeSources env.analysisResp)
      (List.foldl
        (fun d s =>
          addSource d (createSession db topic depth env.now).1 s.title s.url s.content 0 env.now)
        (createSession db topic depth env.now).2
        (collectSources env.search env.extract topic
          (generateResearchQuestions env.questionsResp topic depth) m).1)).2.1 ++
      [Event.persistComplete (createSession db topic depth env.now).1], ?_, ?_⟩
    · simp [List.append_assoc]
    · intro ev hev
      rcases List.mem_append.mp hev with h1 | h2
      · obtain ⟨t, ht⟩ := persistFindings_events _ _ _ _ ev h1
        rw [ht]
        exact ⟨rfl, rfl⟩
      · have : ev = Event.persistComplete (createSession db topic depth env.now).1 := by
          simpa using h2
        rw [this]
        exact ⟨rfl, rfl⟩

/-- C5 (counterexample): in a concrete run accepting two sources from one
query, the source accepted at the first fetch is persisted only after the
second fetch has begun — it is among the trace but not within the first three
events, which are the search and both fetches.  This refutes "each accepted
source is persisted immediately as it is produced, before the next content
fetch begins". -/
theorem c5_counterexample :
    ((research envC5 DB.empty "t" "quick" 5).2.2).take 3 =
      [Event.searchQ "t" 3, Event.fetch "u1", Event.fetch "u2"] ∧
    Event.persistSource 1 "T1" "u1" ∈ (research envC5 DB.empty "t" "quick" 5).2.2 ∧
    Event.persistSource 1 "T1" "u1" ∉
      ((research envC5 DB.empty "t" "quick" 5).2.2).take 3 := by decide

/-- C5 (amended): the query list is the topic followed by the first three
generated questions and is consumed in order (the searched queries form a
prefix of it); every search requests at most 3 results; the accepted source
list is exactly the in-order scan that appends a source iff its extracted
content is non-empty while the cap is unmet; and the accepted sources are
persisted in acceptance order in a single batch after collection finishes —
every store write of a source occurs after every content fetch, not
interleaved with them. -/
theorem c5_collection_and_batched_persistence :
    (∀ (search : String → Nat → List SearchResult) (extract : String → String)
       (topic : String) (questions : List String) (maxSources : Nat),
      (collectSources search extract topic questions maxSources).1 =
        specAccept extract (searchPairs search topic questions) maxSources) ∧
    (∀ (search : String → Nat → List SearchResult) (extract : String → String)
       (topic : String) (questions : List String) (maxSources : Nat),
      searchedQueries (collectSources search extract topic questions maxSources).2 <+:
        topic :: questions.take 3) ∧
    (∀ (search : String → Nat → List SearchResult) (extract : String → String)
       (topic : String) (questions : List String) (maxSources : Nat)
       (q : String) (n : Nat),
      Event.searchQ q n ∈ (collectSources search extract topic questions maxSources).2 →
      n = 3) ∧
    (∀ (env : Env) (db : DB) (topic depth : String) (m : Nat),
      ∃ post : List Event,
        (research env db topic depth m).2.2 =
          (collectSources env.search env.extract topic
            (generateResearchQuestions env.questionsResp topic depth) m).2 ++ post ∧
        (∀ e ∈ (collectSources env.search env.extract topic
            (generateResearchQuestions env.questionsResp topic depth) m).2,
          persistSourceInfo e = none) ∧
        post.filterMap persistSourceInfo =
          (collectSources env.search env.extract topic
            (generateResearchQuestions env.questionsResp topic depth) m).1.map
            (fun s => ((createSession db topic depth env.now).1, s.title, s.url)) ∧
        (∀ e ∈ post, e.isFetch = false)) := by
  refine ⟨?_, ?_, ?_, ?_⟩
  · intro search extract topic questions maxSources
    rw [collectSources, collectFromQueries_sources, searchPairs]
    simp
  · intro search extract topic questions maxSources
    exact collectFromQueries_searched search extract maxSources _ []
  · intro search extract topic questions maxSources q n hmem
    rcases collectFromQueries_events search extract maxSources _ _ _ hmem with
      ⟨u, hu⟩ | ⟨q', hq⟩
    · exact Event.noConfusion hu
    · injection hq with _ h2
  · intro env db topic depth m
    obtain ⟨post', hsplit, hpost'⟩ := research_trace_split env db topic depth m
    refine ⟨((collectSources env.search env.extract topic
        (generateResearchQuestions env.questionsResp topic depth) m).1.map fun s =>
          Event.persistSource (createSession db topic depth env.now).1 s.title s.url) ++
        post', ?_, ?_, ?_, ?_⟩
    · rw [hsplit, List.append_assoc]
    · intro e he
      rcases collectFromQueries_events env.search env.extract m _ _ _ he with
        ⟨u, hu⟩ | ⟨q, hq⟩
      · rw [hu]; rfl
      · rw [hq]; rfl
    · rw [List.filterMap_append, filterMap_persistSourceInfo_map]
      rw [List.filterMap_eq_nil_iff.mpr fun e he => (hpost' e he).2]
      simp
    · intro e he
      rcases List.mem_append.mp he with h1 | h2
      · obtain ⟨s, _, hs⟩ := List.mem_map.mp h1
        rw [← hs]
        rfl
      · exact (hpost' e h2).1

/-- Witness for C5 (amended): the general clauses instantiated at the concrete
two-result environment of the counterexample run. -/
theorem c5_collection_witness :
    (collectSources envC5.search envC5.extract "t" [] 5).1 =
      specAccept envC5.extract (searchPairs envC5.search "t" []) 5 ∧
    searchedQueries (collectSources envC5.search envC5.extract "t" [] 5).2 <+:
      "t" :: List.take 3 [] ∧
    (3 : Nat) = 3 ∧
    (∃ post : List Event,
      (research envC5 DB.empty "t" "quick" 5).2.2 =
        (collectSources envC5.search envC5.extract "t"
          (generateResearchQuestions envC5.questionsResp "t" "quick") 5).2 ++ post ∧
      (∀ e ∈ (collectSources envC5.search envC5.extract "t"
          (generateResearchQuestions envC5.questionsResp "t" "quick") 5).2,
        persistSourceInfo e = none) ∧
      post.filterMap persistSourceInfo =
        (collectSources envC5.search envC5.extract "t"
          (generateResearchQuestions envC5.questionsResp "t" "quick") 5).1.map
          (fun s => ((createSession DB.empty "t" "quick" envC5.now).1, s.title, s.url)) ∧
      (∀ e ∈ post, e.isFetch = false)) := by
  refine ⟨?_, ?_, ?_, ?_⟩
  · exact c5_collection_and_batched_persistence.1 envC5.search envC5.extract "t" [] 5
  · exact c5_collection_and_batched_persistence.2.1 envC5.search envC5.extract "t" [] 5
  · exact c5_collection_and_batched_persistence.2.2.1 envC5.search envC5.extract
      "t" [] 5 "t" 3 (by decide)
  · exact c5_collection_and_batched_persistence.2.2.2 envC5 DB.empty "t" "quick" 5

theorem takeUntil_eq_self_of_no_break :
    ∀ l : List Char, ¬ ['\n', '\n'] <:+: l → takeUntil ['\n', '\n'] l = l := by
  intro l
  induction l with
  | nil => intro _; rfl
  | cons c cs ih =>
    intro h
    by_cases hp : ['\n', '\n'].isPrefixOf (c :: cs) = true
    · exfalso
      apply h
      obtain ⟨t, ht⟩ := List.isPrefixOf_iff_prefix.mp hp
      exact ⟨[], t, by simpa using ht⟩
    · have hcs : ¬ ['\n', '\n'] <:+: cs := by
        rintro ⟨s, t, hst⟩
        exact h ⟨c :: s, t, by simp [hst]⟩
      simp [takeUntil, hp, ih hcs]

theorem takeUntil_first_break :
    ∀ l : List Char, ['\n', '\n'] <:+: l →
      ∃ rest : List Char,
        l = takeUntil ['\n', '\n'] l ++ ['\n', '\n'] ++ rest ∧
        ¬ ['\n', '\n'] <:+: (takeUntil ['\n', '\n'] l ++ ['\n']) := by
  intro l
  induction l with
  | nil =>
    intro h
    exfalso
    obtain ⟨s, t, hst⟩ := h
    have := congrArg List.length hst
    simp at this
  | cons c cs ih =>
    intro h
    by_cases hp : ['\n', '\n'].isPrefixOf (c :: cs) = true
    · obtain ⟨t, ht⟩ := List.isPrefixOf_iff_prefix.mp hp
      have hTU : takeUntil ['\n', '\n'] (c :: cs) = [] := by simp [takeUntil, hp]
      refine ⟨t, ?_, ?_⟩
      · rw [hTU]; simpa using ht.symm
      · rw [hTU]
        rintro ⟨s', t', hst⟩
        have := congrArg List.length hst
        simp at this
        omega
    · have hTU : takeUntil ['\n', '\n'] (c :: cs) = c :: takeUntil ['\n', '\n'] cs := by
        simp [takeUntil, hp]
      have hcs : ['\n', '\n'] <:+: cs := by
        obtain ⟨s, t, hst⟩ := h
        cases s with
        | nil =>
          exfalso
          apply hp
          exact List.isPrefixOf_iff_prefix.mpr ⟨t, by simpa using hst⟩
        | cons a s' =>
          simp only [List.cons_append] at hst
          injection hst with _ h2
          exact ⟨s', t, h2⟩
      obtain ⟨rest, hdec, hnot⟩ := ih hcs
      refine ⟨rest, ?_, ?_⟩
      · rw [hTU]
        simp only [List.cons_append]
        exact congrArg (List.cons c) hdec
      · rw [hTU]
        rintro ⟨s, t, hst⟩
        cases s with
        | nil =>
          simp only [List.nil_append, List.cons_append] at hst
          injection hst with h1 h2
          apply hp
          cases hTc : takeUntil ['\n', '\n'] cs with
          | nil =>
            rw [hTc] at hdec
            simp only [List.nil_append] at hdec
            rw [ List.isPrefixOf_iff_prefix]
            refine ⟨'\n' :: rest, ?_⟩
            rw [← h1, hdec]
            rfl
          | cons d ds =>
            rw [hTc] at h2
            simp only [List.cons_append] at h2
            injection h2 with h3 _
            rw [hTc] at hdec
            rw [ List.isPrefixOf_iff_prefix]
            refine ⟨ds ++ ['\n', '\n'] ++ rest, ?_⟩
            rw [← h1, hdec, ← h3]
            simp
        | cons a s' =>
          simp only [List.cons_append] at hst
          injection hst with _ h2
          exact hnot ⟨s', t, h2⟩

/-- C7 (confirmed): on success the report's summary is the content up to the
first blank-line break — the whole content when no break occurs, empty for
empty content; and the break after the summary is the first one, since no
break occurs inside the summary even when extended by the break's first
newline.  On model failure the content is the fixed placeholder, the summary
is empty, and the pipeline still completes the run. -/
theorem c7_report_summary :
    generateReport none = { content := "Error generating report", summary := "" } ∧
    (∀ content : String, (generateReport (some content)).content = content) ∧
    (generateReport (some "")).summary = "" ∧
    (∀ content : String, ¬ ['\n', '\n'] <:+: content.data →
      (generateReport (some content)).summary = content) ∧
    (∀ content : String, ['\n', '\n'] <:+: content.data →
      ∃ rest : List Char,
        content.data = (generateReport (some content)).summary.data ++ ['\n', '\n'] ++ rest ∧
        ¬ ['\n', '\n'] <:+: ((generateReport (some content)).summary.data ++ ['\n'])) ∧
    (∀ (env : Env) (db : DB) (topic depth : String) (maxSources : Nat),
      env.reportResp = none →
      (∀ f ∈ analyzeSources env.analysisResp, f.text.isSome = true) →
      ∃ res : ResearchResult,
        (research env db topic depth maxSources).1 = Except.ok res ∧
        res.report = { content := "Error generating report", summary := "" }) := by
  refine ⟨rfl, fun content => rfl, rfl, ?_, ?_, ?_⟩
  · intro content h
    by_cases hc : content = ""
    · simp [generateReport, hc]
    · simp only [generateReport, if_neg hc]
      show firstParagraph content = content
      unfold firstParagraph
      rw [takeUntil_eq_self_of_no_break content.data h]
  · intro content h
    have hc : content ≠ "" := by
      intro hc
      rw [hc] at h
      obtain ⟨s, t, hst⟩ := h
      have := congrArg List.length hst
      simp at this
    obtain ⟨rest, hdec, hnot⟩ := takeUntil_first_break content.data h
    refine ⟨rest, ?_, ?_⟩
    · rw [show (generateReport (some content)).summary = firstParagraph content from by
        simp [generateReport, hc]]
      exact hdec
    · rw [show (generateReport (some content)).summary = firstParagraph content from by
        simp [generateReport, hc]]
      exact hnot
  · intro env db topic depth maxSources hrep h
    refine ⟨_, (research_completes env db topic depth maxSources h).1, ?_⟩
    show generateReport env.reportResp = _
    rw [hrep]
    rfl

/-- Witness for C7: instantiated at a break-free content, a two-paragraph
content, and a concrete failing report call. -/
theorem c7_report_summary_witness :
    (generateReport (some "no break here")).summary = "no break here" ∧
    (∃ rest : List Char,
      ("para one\n\npara two" : String).data =
        (generateReport (some "para one\n\npara two")).summary.data ++ ['\n', '\n'] ++ rest ∧
      ¬ ['\n', '\n'] <:+:
        ((generateReport (some "para one\n\npara two")).summary.data ++ ['\n'])) ∧
    (∃ res : ResearchResult,
      (research envC7 DB.empty "t" "quick" 5).1 = Except.ok res ∧
      res.report = { content := "Error generating report", summary := "" }) := by
  refine ⟨?_, ?_, ?_⟩
  · exact c7_report_summary.2.2.2.1 "no break here" (by decide)
  · exact c7_report_summary.2.2.2.2.1 "para one\n\npara two" (by decide)
  · exact c7_report_summary.2.2.2.2.2 envC7 DB.empty "t" "quick" 5 rfl (by decide)

/-- C8 (counterexample): with three sessions A, B, C created at the same
creation timestamp, the query (which orders by created_at only, with no id
tie-break; the model realises the unspecified tie order as insertion order)
returns A then B under limit 2, not C then B as an id-descending tie-break
would demand. -/
theorem c8_counterexample :
    (listSessions dbTied 2).map SessionRow.topic = ["A", "B"] ∧
    (["A", "B"] : List String) ≠ ["C", "B"] := by decide

/-- C8 (amended): `list_sessions` returns a limit-truncated arrangement of the
stored sessions ordered by creation time descending; the SQL names no tie-break
key, so ties carry no guaranteed order.  The three-session A, B, C scenario
returns C then B when the three creation times strictly increase. -/
theorem c8_list_sessions_order :
    (∀ (db : DB) (limit : Nat), List.Pairwise sessionOrder (listSessions db limit)) ∧
    (∀ db : DB, (db.sessions.insertionSort sessionOrder).Perm db.sessions) ∧
    (∀ (db : DB) (limit : Nat), (listSessions db limit).length ≤ limit) ∧
    (listSessions dbStrict 2).map SessionRow.topic = ["C", "B"] := by
  refine ⟨?_, ?_, ?_, by decide⟩
  · intro db limit
    exact (List.sorted_insertionSort sessionOrder db.sessions).sublist
      (List.take_sublist limit _)
  · intro db
    exact List.perm_insertionSort sessionOrder db.sessions
  · intro db limit
    simp [listSessions, List.length_take]

/-- C9 (code evaluated at the failing input): an analysis response with a
SOURCES: line before the first FINDING: line yields a finding record without a
text field; `research` then raises a KeyError, performs no completion write,
and leaves the session status at in_progress. -/
theorem c9_keyerror_skips_completion :
    (research envC9 DB.empty "t" "quick" 5).1 = Except.error "KeyError: text" ∧
    ((research envC9 DB.empty "t" "quick" 5).2.2).all
      (fun e => ! e.isComplete) = true ∧
    (getSession (research envC9 DB.empty "t" "quick" 5).2.1 1).map SessionRow.status =
      some "in_progress" :=
  ⟨rfl, by decide, by decide⟩

/-- C10 (confirmed): any depth outside quick/standard/deep falls back to the
same target as standard (5 questions), so `_generate_research_questions` does
not fail and its result has length at most 5. -/
theorem c10_unknown_depth :
    ∀ depth : String, depth ≠ "quick" → depth ≠ "standard" → depth ≠ "deep" →
      numQuestions depth = numQuestions "standard" ∧
      ∀ (resp : Option String) (topic : String),
        (generateResearchQuestions resp topic depth).length ≤ 5 := by
  intro depth h1 h2 h3
  have hnum : numQuestions depth = 5 := by simp [numQuestions, h1, h2, h3]
  refine ⟨by rw [hnum]; decide, ?_⟩
  intro resp topic
  cases resp with
  | none => simp [generateResearchQuestions]
  | some r =>
    simp only [generateResearchQuestions, parseQuestions, hnum, List.length_take]
    omega

/-- Witness for C10: instantiated at the unknown depth "fast". -/
theorem c10_unknown_depth_witness :
    numQuestions "fast" = numQuestions "standard" ∧
    (generateResearchQuestions
      (some "1. a\n2. b\n3. c\n4. d\n5. e\n6. f") "t" "fast").length ≤ 5 := by
  have h := c10_unknown_depth "fast" (by decide) (by decide) (by decide)
  exact ⟨h.1, h.2 (some "1. a\n2. b\n3. c\n4. d\n5. e\n6. f") "t"⟩

end SmartResearch
